import Mathlib

/-!
Verification development for the deepseg background-removal pipeline
(src/deepseg.cc). The definitions below are a shallow embedding of the
parts of the program the checked properties talk about:

* the TFLITE_METADATA flatbuffer traversal `parse_metadata`
  (deepseg.cc lines 228-324), embedded over a byte list with
  little-endian reads; uint32 value arithmetic wraps modulo 2^32,
  pointer indexing is plain natural addition (no wrap), matching
  the C reads on well-formed inputs;
* the caller side of metadata handling in `init_tensorflow`
  (lines 351-370): locals tmpmean/tmpstdd start at 0 and the parse
  status is only printed;
* the pixel normalization step of `calc_mask` (line 415):
  convertTo with alpha = 1/128, beta = -1;
* the label list handling and the resolved "person" index
  (lines 112-115 and 372-383);
* the three model-family decode branches of `calc_mask`
  (lines 427-467) including the mask-byte blend
  `out[n] = (val & 0xE0) | (out[n] >> 3)`;
* the ROI rectangle computed in `init_tensorflow` (lines 349, 386)
  and the write pattern of the full-frame mask (lines 387-394, 476).

Machine floats are modelled by rationals (exact for every constant the
properties touch), except the Google-Meet softmax branch which uses
real exponentials. IEEE-754 binary32 bit patterns are decoded to
rationals by `fp32ToRat` (finite values only; the inputs used here are
finite).
-/

namespace Deepseg

/-! ### Little-endian byte reads (the raw pointer casts of parse_metadata) -/

/-- One byte of the metadata buffer; reads past the end give 0. -/
def byteAt (b : List ℕ) (i : ℕ) : ℕ := (b.getD i 0) % 256

/-- `*(uint16_t *)(buf+i)`, little endian. -/
def u16At (b : List ℕ) (i : ℕ) : ℕ := byteAt b i + 256 * byteAt b (i+1)

/-- `*(uint32_t *)(buf+i)`, little endian. -/
def u32At (b : List ℕ) (i : ℕ) : ℕ :=
  byteAt b i + 256 * byteAt b (i+1) + 65536 * byteAt b (i+2) + 16777216 * byteAt b (i+3)

/-- `*(int32_t *)(buf+i)`: the same 32 bits read as a signed value. -/
def i32At (b : List ℕ) (i : ℕ) : ℤ :=
  if u32At b i < 2^31 then (u32At b i : ℤ) else (u32At b i : ℤ) - 2^32

/-- uint32 subtraction of a signed offset, wrapping modulo 2^32
(`uint32_t rvtb = root - off`). -/
def u32sub (a : ℕ) (o : ℤ) : ℕ := (((a : ℤ) - o) % 2^32).toNat

/-! ### parse_metadata: derived addresses (deepseg.cc 228-324)

Each definition names one intermediate address of the fixed flatbuffer
traversal, computed exactly as the corresponding C statement computes it. -/

/-- step#1: root table offset, `root = *(uint32_t *)buf`. -/
def pmRoot (b : List ℕ) : ℕ := u32At b 0

/-- step#2: root vtable, `rvtb = root - *(int32_t *)(buf+root)`. -/
def pmRvtb (b : List ℕ) : ℕ := u32sub (pmRoot b) (i32At b (pmRoot b))

/-- step#3: root vtable entry for the version string (3rd field). -/
def pmOvers (b : List ℕ) : ℕ := u16At b (pmRvtb b + 8)

/-- step#3: root vtable entry for the subgraph vector (4th field). -/
def pmOsubg (b : List ℕ) : ℕ := u16At b (pmRvtb b + 10)

/-- step#4: address of the version string. -/
def pmVers (b : List ℕ) : ℕ :=
  (u32At b (pmRoot b + pmOvers b) + (pmRoot b + pmOvers b) % 2^32) % 2^32

/-- step#5: address of the subgraph vector. -/
def pmSubv (b : List ℕ) : ℕ :=
  (u32At b (pmRoot b + pmOsubg b) + (pmRoot b + pmOsubg b) % 2^32) % 2^32

/-- step#7: address of the first subgraph table. -/
def pmSub1 (b : List ℕ) : ℕ :=
  (u32At b (pmSubv b + 4) + (pmSubv b + 4) % 2^32) % 2^32

/-- step#8: subgraph vtable. -/
def pmSvtb (b : List ℕ) : ℕ := u32sub (pmSub1 b) (i32At b (pmSub1 b))

/-- step#9: subgraph vtable entry for input tensor metadata (3rd field). -/
def pmOitmd (b : List ℕ) : ℕ := u16At b (pmSvtb b + 8)

/-- step#10: address of the input tensor metadata vector. -/
def pmItmdv (b : List ℕ) : ℕ :=
  (u32At b (pmSub1 b + pmOitmd b) + (pmSub1 b + pmOitmd b) % 2^32) % 2^32

/-- step#12: address of the first tensor metadata table. -/
def pmItmd1 (b : List ℕ) : ℕ :=
  (u32At b (pmItmdv b + 4) + (pmItmdv b + 4) % 2^32) % 2^32

/-- step#13: tensor metadata vtable. -/
def pmItvtb (b : List ℕ) : ℕ := u32sub (pmItmd1 b) (i32At b (pmItmd1 b))

/-- step#14: vtable entry for the process unit vector (5th field). -/
def pmOtmpus (b : List ℕ) : ℕ := u16At b (pmItvtb b + 12)

/-- step#15: address of the process unit vector. -/
def pmItpuv (b : List ℕ) : ℕ :=
  (u32At b (pmItmd1 b + pmOtmpus b) + (pmItmd1 b + pmOtmpus b) % 2^32) % 2^32

/-- step#17: address of the first process unit table. -/
def pmItpu1 (b : List ℕ) : ℕ :=
  (u32At b (pmItpuv b + 4) + (pmItpuv b + 4) % 2^32) % 2^32

/-- step#18: process unit vtable. -/
def pmPuvtb (b : List ℕ) : ℕ := u32sub (pmItpu1 b) (i32At b (pmItpu1 b))

/-- step#19: vtable entry for the option type id. -/
def pmOopid (b : List ℕ) : ℕ := u16At b (pmPuvtb b + 4)

/-- step#19: vtable entry for the option value. -/
def pmOopvl (b : List ℕ) : ℕ := u16At b (pmPuvtb b + 6)

/-- step#21: address of the NormalizationOptions table. -/
def pmNorm (b : List ℕ) : ℕ :=
  (u32At b (pmItpu1 b + pmOopvl b) + (pmItpu1 b + pmOopvl b) % 2^32) % 2^32

/-- step#22: normalization options vtable. -/
def pmNovtb (b : List ℕ) : ℕ := u32sub (pmNorm b) (i32At b (pmNorm b))

/-- step#23: vtable entry for the mean vector. -/
def pmOnmean (b : List ℕ) : ℕ := u16At b (pmNovtb b + 4)

/-- step#23: vtable entry for the std vector. -/
def pmOnstd (b : List ℕ) : ℕ := u16At b (pmNovtb b + 6)

/-- step#24: address of the mean vector. -/
def pmNomeanv (b : List ℕ) : ℕ :=
  (u32At b (pmNorm b + pmOnmean b) + (pmNorm b + pmOnmean b) % 2^32) % 2^32

/-- step#24: address of the std vector. -/
def pmNostdv (b : List ℕ) : ℕ :=
  (u32At b (pmNorm b + pmOnstd b) + (pmNorm b + pmOnstd b) % 2^32) % 2^32

/-! ### parse_metadata: the nine structural checks, in traversal order -/

/-- step#2.1: if a file-identifier gap exists (rvtb >= 8), it must read
"M001" (bytes 77,48,48,49 at offsets 4..7); mismatch returns 1. -/
def pmCheck1 (b : List ℕ) : Prop :=
  8 ≤ pmRvtb b →
    (byteAt b 4 = 77 ∧ byteAt b 5 = 48 ∧ byteAt b 6 = 48 ∧ byteAt b 7 = 49)

/-- step#4: version string length must be 2; mismatch returns -1. -/
def pmCheck2 (b : List ℕ) : Prop := i32At b (pmVers b) = 2

/-- step#4: version string content must be "v1" (118, 49); mismatch returns -2. -/
def pmCheck3 (b : List ℕ) : Prop :=
  byteAt b (pmVers b + 4) = 118 ∧ byteAt b (pmVers b + 5) = 49

/-- step#6: exactly one subgraph; mismatch returns -3. -/
def pmCheck4 (b : List ℕ) : Prop := i32At b (pmSubv b) = 1

/-- step#11: exactly one tensor metadata object; mismatch returns -4. -/
def pmCheck5 (b : List ℕ) : Prop := i32At b (pmItmdv b) = 1

/-- step#16: exactly one process unit object; mismatch returns -5. -/
def pmCheck6 (b : List ℕ) : Prop := i32At b (pmItpuv b) = 1

/-- step#20: option id must be 1 (NormalizationOptions); mismatch returns -6. -/
def pmCheck7 (b : List ℕ) : Prop := byteAt b (pmItpu1 b + pmOopid b) = 1

/-- step#25: exactly one entry in the mean array; mismatch returns -7. -/
def pmCheck8 (b : List ℕ) : Prop := i32At b (pmNomeanv b) = 1

/-- step#25: exactly one entry in the std array; mismatch returns -8. -/
def pmCheck9 (b : List ℕ) : Prop := i32At b (pmNostdv b) = 1

instance (b : List ℕ) : Decidable (pmCheck1 b) := by
  unfold pmCheck1
  infer_instance

instance (b : List ℕ) : Decidable (pmCheck2 b) := by
  unfold pmCheck2
  infer_instance

instance (b : List ℕ) : Decidable (pmCheck3 b) := by
  unfold pmCheck3
  infer_instance

instance (b : List ℕ) : Decidable (pmCheck4 b) := by
  unfold pmCheck4
  infer_instance

instance (b : List ℕ) : Decidable (pmCheck5 b) := by
  unfold pmCheck5
  infer_instance

instance (b : List ℕ) : Decidable (pmCheck6 b) := by
  unfold pmCheck6
  infer_instance

instance (b : List ℕ) : Decidable (pmCheck7 b) := by
  unfold pmCheck7
  infer_instance

instance (b : List ℕ) : Decidable (pmCheck8 b) := by
  unfold pmCheck8
  infer_instance

instance (b : List ℕ) : Decidable (pmCheck9 b) := by
  unfold pmCheck9
  infer_instance

/-- All nine structural checks of the fixed traversal. -/
def pmChecksPass (b : List ℕ) : Prop :=
  pmCheck1 b ∧ pmCheck2 b ∧ pmCheck3 b ∧ pmCheck4 b ∧ pmCheck5 b ∧
  pmCheck6 b ∧ pmCheck7 b ∧ pmCheck8 b ∧ pmCheck9 b

instance (b : List ℕ) : Decidable (pmChecksPass b) := by
  unfold pmChecksPass
  infer_instance

/-- Return status of `parse_metadata` together with the contents of the
caller-supplied `*pmean` / `*pstdd` locations when the function returns
(float values kept as their raw 32-bit patterns). -/
structure ParseResult where
  status : ℤ
  mean : ℕ
  stdd : ℕ

/-- Shallow embedding of `parse_metadata` (deepseg.cc 228-324): the chain
of early returns of the C function. `mean0`/`stdd0` are the contents of
the caller-supplied output locations on entry; they are carried through
unchanged on every non-zero return and overwritten (step#26) only on the
success path. -/
def parse_metadata (b : List ℕ) (mean0 stdd0 : ℕ) : ParseResult :=
  if ¬ pmCheck1 b then ⟨1, mean0, stdd0⟩
  else if ¬ pmCheck2 b then ⟨-1, mean0, stdd0⟩
  else if ¬ pmCheck3 b then ⟨-2, mean0, stdd0⟩
  else if ¬ pmCheck4 b then ⟨-3, mean0, stdd0⟩
  else if ¬ pmCheck5 b then ⟨-4, mean0, stdd0⟩
  else if ¬ pmCheck6 b then ⟨-5, mean0, stdd0⟩
  else if ¬ pmCheck7 b then ⟨-6, mean0, stdd0⟩
  else if ¬ pmCheck8 b then ⟨-7, mean0, stdd0⟩
  else if ¬ pmCheck9 b then ⟨-8, mean0, stdd0⟩
  else ⟨0, u32At b (pmNomeanv b + 4), u32At b (pmNostdv b + 4)⟩

/-- Caller side (init_tensorflow, deepseg.cc 351-368): tmpmean/tmpstdd
start at 0; when no metadata blob is present they stay 0; when parsing
fails the status is only printed and they stay 0; nothing here is
fatal. -/
def initNormalization (md : Option (List ℕ)) : ℕ × ℕ :=
  match md with
  | none => (0, 0)
  | some b =>
      let r := parse_metadata b 0 0
      (r.mean, r.stdd)

/-- IEEE-754 binary32 bit pattern to an exact rational (finite values;
the exponent-255 NaN/infinity patterns are not used by the properties
proved here). -/
def fp32ToRat (bits : ℕ) : ℚ :=
  let sgn : ℕ := bits / 2^31 % 2
  let ex : ℕ := bits / 2^23 % 2^8
  let mant : ℕ := bits % 2^23
  let mag : ℚ :=
    if ex = 0 then mkRat (mant : ℤ) (2^149)
    else if 127 ≤ ex then mkRat (((2^23 + mant) * 2^(ex - 127) : ℕ) : ℤ) (2^23)
    else mkRat ((2^23 + mant : ℕ) : ℤ) (2^23 * 2^(127 - ex))
  if sgn = 1 then -mag else mag

/-- A concrete, structurally valid TFLITE_METADATA blob (168 bytes),
laid out by hand to satisfy every check of the fixed traversal, with a
one-element mean vector holding 0.0f (bits 0x00000000) and a one-element
std vector holding 1.0f (bits 0x3F800000). -/
def metaBuf : List ℕ :=
  [ 20, 0, 0, 0,          -- 0: root table offset
    77, 48, 48, 49,       -- 4: file identifier "M001"
    0, 0, 0, 0, 0, 0, 0, 0, -- 8: root vtable header/slack
    4, 0,                 -- 16: vtable entry: version string at root+4
    8, 0,                 -- 18: vtable entry: subgraph vector at root+8
    12, 0, 0, 0,          -- 20: root table, vtable offset 12 (vtable at 8)
    8, 0, 0, 0,           -- 24: rel offset to version string (at 32)
    12, 0, 0, 0,          -- 28: rel offset to subgraph vector (at 40)
    2, 0, 0, 0,           -- 32: version string length 2
    118, 49, 0, 0,        -- 36: "v1"
    1, 0, 0, 0,           -- 40: subgraph vector, 1 element
    16, 0, 0, 0,          -- 44: rel offset to subgraph table (at 60)
    0, 0, 0, 0, 0, 0, 0, 0, -- 48: subgraph vtable header/slack
    4, 0,                 -- 56: vtable entry: tensor metadata at sub1+4
    0, 0,                 -- 58: pad
    12, 0, 0, 0,          -- 60: subgraph table, vtable offset 12 (vtable at 48)
    4, 0, 0, 0,           -- 64: rel offset to tensor metadata vector (at 68)
    1, 0, 0, 0,           -- 68: tensor metadata vector, 1 element
    24, 0, 0, 0,          -- 72: rel offset to tensor metadata table (at 96)
    0, 0, 0, 0, 0, 0, 0, 0, 0, 0, 0, 0, -- 76: tensor metadata vtable slack
    4, 0,                 -- 88: vtable entry: process units at itmd1+4
    0, 0, 0, 0, 0, 0,     -- 90: pad
    20, 0, 0, 0,          -- 96: tensor metadata table, vtable offset 20 (at 76)
    4, 0, 0, 0,           -- 100: rel offset to process unit vector (at 104)
    1, 0, 0, 0,           -- 104: process unit vector, 1 element
    12, 0, 0, 0,          -- 108: rel offset to process unit table (at 120)
    0, 0, 0, 0,           -- 112: process unit vtable header
    4, 0,                 -- 116: vtable entry: option id at itpu1+4
    8, 0,                 -- 118: vtable entry: option value at itpu1+8
    8, 0, 0, 0,           -- 120: process unit table, vtable offset 8 (at 112)
    1, 0, 0, 0,           -- 124: option id 1 = NormalizationOptions
    12, 0, 0, 0,          -- 128: rel offset to normalization table (at 140)
    0, 0, 0, 0,           -- 132: normalization vtable header
    4, 0,                 -- 136: vtable entry: mean vector at norm+4
    8, 0,                 -- 138: vtable entry: std vector at norm+8
    8, 0, 0, 0,           -- 140: normalization table, vtable offset 8 (at 132)
    8, 0, 0, 0,           -- 144: rel offset to mean vector (at 152)
    12, 0, 0, 0,          -- 148: rel offset to std vector (at 160)
    1, 0, 0, 0,           -- 152: mean vector, 1 element
    0, 0, 0, 0,           -- 156: 0.0f
    1, 0, 0, 0,           -- 160: std vector, 1 element
    0, 0, 128, 63 ]       -- 164: 1.0f

/-! ### Pixel normalization (calc_mask, deepseg.cc 414-415)

`in_u8_rgb.convertTo(info.input, CV_32FC3, 1.0/128.0, -1.0)`: every
input-tensor value is `pixel * (1/128) + (-1)`, with constants written
literally in calc_mask. -/

/-- The normalization calc_mask actually applies to a pixel value. -/
def calcNormalize (x : ℚ) : ℚ := x * (1/128) + (-1)

/-- The value fed to the input tensor for a pixel, as a function of the
metadata-parse outcome: parse_metadata writes only the init_tensorflow
locals tmpmean/tmpstdd (deepseg.cc 355, 364), which are printed and never
reach calc_mask, so the parse outcome argument is unused — exactly as in
the code (TODO comment at line 354). -/
def maskEngineInput ( _pr : ParseResult) (x : ℚ) : ℚ := calcNormalize x

/-- The (mean, stddev) affine normalization the specification describes:
`(x - mean) / stddev`. Stated from the wording of the spec for
comparison with `maskEngineInput`. -/
def specNormalize (mean stdd x : ℚ) : ℚ := (x - mean) / stdd

/-! ### Label list and the resolved person index (deepseg.cc 112-115, 372-383) -/

/-- The built-in DeepLab v3+ class list (deepseg.cc 112). -/
def defaultLabels : List String :=
  ["background", "aeroplane", "bicycle", "bird", "boat", "bottle", "bus",
   "car", "cat", "chair", "cow", "dining table", "dog", "horse", "motorbike",
   "person", "potted plant", "sheep", "sofa", "train", "tv"]

/-- init_tensorflow (deepseg.cc 373-377): the labels read from the model
package replace the default list only when non-empty. -/
def activeLabels (tmplabs : List String) : List String :=
  if tmplabs = [] then defaultLabels else tmplabs

/-- `std::distance(labels.begin(), std::find(labels.begin(), labels.end(), "person"))`:
index of the first "person", or the list length when absent. -/
def persIndex : List String → ℕ
  | [] => 0
  | s :: rest => if s = "person" then 0 else persIndex rest + 1

/-! ### DeepLab decode branch (calc_mask, deepseg.cc 427-440) -/

/-- The inner max-scan of the DeepLab branch: state `(maxval, maxpos)`
starting from `(-10000, 0)`, updated when `tmp[n*cnum+i] > maxval`;
`i` is the running class index. -/
def deeplabLoop : List ℚ → ℕ → ℚ × ℕ → ℚ × ℕ
  | [], _, st => st
  | x :: xs, i, (mv, mp) =>
      deeplabLoop xs (i+1) (if mv < x then (x, i) else (mv, mp))

/-- `maxpos` after scanning the class logits of one output position. -/
def deeplabArgmax (row : List ℚ) : ℕ := (deeplabLoop row 0 (-10000, 0)).2

/-- `uint8_t val = (maxpos == pers ? 0 : 255)` — 0 marks the person
(foreground kept), 255 marks background (to be replaced). -/
def deeplabVal (row : List ℚ) (pers : ℕ) : ℕ :=
  if deeplabArgmax row = pers then 0 else 255

/-- The `cnum` class logits read for output position `n`:
`tmp[n*cnum+i]` for `i = 0..cnum-1`. -/
def deeplabRow (tmp : ℕ → ℚ) (cnum n : ℕ) : List ℚ :=
  (List.range cnum).map (fun i => tmp (n * cnum + i))

/-- The classification value the DeepLab branch produces at output
position `n` of the flat tensor `tmp`. -/
def deeplabClass (tmp : ℕ → ℚ) (cnum pers n : ℕ) : ℕ :=
  deeplabVal (deeplabRow tmp cnum n) pers

/-- Specification-side arg-max: the first index of a list whose entry is
greater than or equal to every entry (ties resolved to the lowest
index); 0 for the empty list. -/
def firstArgmax : List ℚ → ℕ
  | [] => 0
  | a :: t => if ∀ y ∈ t, y ≤ a then 0 else firstArgmax t + 1

/-! ### BodyPix/selfie decode branch (calc_mask, deepseg.cc 443-449) -/

/-- `uint8_t val = (tmp[n] > 0.65 ? 0 : 255)`. -/
def bodypixVal (p : ℚ) : ℕ := if 65/100 < p then 0 else 255

/-! ### Google Meet two-channel softmax branch (calc_mask, deepseg.cc 452-467)

Channel 0 holds the background logit and channel 1 the person logit
(`tmp[2*n]` and `tmp[2*n+1]`); the code softmaxes the pair and takes
`val = (p0 < p1 ? 0 : 255)`. -/

/-- Softmax probability of channel 0 (background). -/
noncomputable def segmP0 (l0 l1 : ℝ) : ℝ :=
  Real.exp l0 / (Real.exp l0 + Real.exp l1)

/-- Softmax probability of channel 1 (person/foreground). -/
noncomputable def segmP1 (l0 l1 : ℝ) : ℝ :=
  Real.exp l1 / (Real.exp l0 + Real.exp l1)

open Classical in
/-- `uint8_t val = (p0 < p1 ? 0 : 255)`: foreground (0) exactly when the
background probability is strictly below the person probability; the
tie goes to background (255). -/
noncomputable def segmVal (l0 l1 : ℝ) : ℕ :=
  if segmP0 l0 l1 < segmP1 l0 l1 then 0 else 255

/-! ### The mask-byte blend shared by all three branches
`out[n] = (val & 0xE0) | (out[n] >> 3)` (deepseg.cc 438, 447, 465). -/

/-- New mask byte from the classification value and the previous byte. -/
def blendByte (val prev : ℕ) : ℕ := (val &&& 0xE0) ||| (prev >>> 3)

/-- New mask byte written by the DeepLab branch at a position. -/
def deeplabByte (row : List ℚ) (pers prev : ℕ) : ℕ :=
  blendByte (deeplabVal row pers) prev

/-- New mask byte written by the BodyPix/selfie branch at a position. -/
def bodypixByte (p : ℚ) (prev : ℕ) : ℕ := blendByte (bodypixVal p) prev

/-- New mask byte written by the Google Meet branch at a position. -/
noncomputable def segmByte (l0 l1 : ℝ) (prev : ℕ) : ℕ :=
  blendByte (segmVal l0 l1) prev

/-! ### ROI rectangle (init_tensorflow, deepseg.cc 349, 386) -/

/-- Conversion of a rational to `int` the way C converts `float` to
`int`: truncation toward zero. -/
def ratTrunc (q : ℚ) : ℤ := if q < 0 then ⌈q⌉ else ⌊q⌋

/-- A cv::Rect. -/
structure CvRect where
  x : ℤ
  y : ℤ
  w : ℤ
  h : ℤ

/-- `info.roidim = cv::Rect((width - height/ratio)/2, 0, height/ratio, height)`
with `ratio = input.cols / input.rows` = model input width over height
(deepseg.cc 349, 386). The float expressions are modelled exactly over
ℚ and truncated to int by the cv::Rect constructor. -/
def roiRect (w h mw mh : ℕ) : CvRect :=
  let rt : ℚ := (mw : ℚ) / (mh : ℚ)
  { x := ratTrunc (((w : ℚ) - (h : ℚ) / rt) / 2)
    y := 0
    w := ratTrunc ((h : ℚ) / rt)
    h := (h : ℤ) }

/-! ### Full-frame mask writes (deepseg.cc 387-394, 475-477)

`info.mask = cv::Mat::ones(height, width, CV_8UC1)` fills the full-frame
mask with 1; `info.mroi = info.mask(info.roidim)` is a view of the ROI
sub-rectangle, and the only write calc_mask performs on the full-frame
mask is `cv::resize(info.ofinal, info.mroi, ...)`, which writes exactly
the pixels of that view (the destination size equals the view size, so
no reallocation detaches the view). A mask value of 1 (non-zero) makes
`bg.copyTo(raw, mask)` replace the pixel with the substitute
background. -/

/-- Point membership in a cv::Rect. -/
def inRect (r : CvRect) (px py : ℤ) : Prop :=
  r.x ≤ px ∧ px < r.x + r.w ∧ r.y ≤ py ∧ py < r.y + r.h

instance (r : CvRect) (px py : ℤ) : Decidable (inRect r px py) := by
  unfold inRect
  infer_instance

/-- The initialized full-frame mask: every pixel 1. -/
def maskInit : ℤ → ℤ → ℕ := fun _ _ => 1

/-- One upsample step: the resize into the ROI view writes `small` at
every pixel inside the rectangle and touches nothing outside it. -/
def upsampleWrite (r : CvRect) (small mask : ℤ → ℤ → ℕ) : ℤ → ℤ → ℕ :=
  fun px py => if inRect r px py then small px py else mask px py

/-- The full-frame mask after `k` processing cycles, where `smalls j` is
the (arbitrary) upsampled small mask of cycle `j`. -/
def runMaskCycles (r : CvRect) (smalls : ℕ → ℤ → ℤ → ℕ) : ℕ → ℤ → ℤ → ℕ
  | 0 => maskInit
  | k+1 => upsampleWrite r (smalls k) (runMaskCycles r smalls k)

/-- Truncation of an integer value is that value. -/
lemma ratTrunc_intCast (z : ℤ) : ratTrunc (z : ℚ) = z := by
  unfold ratTrunc
  split_ifs <;> simp

/-! ### Helper lemmas -/

/-- Truncation of a non-negative rational is its floor. -/
lemma ratTrunc_of_nonneg (q : ℚ) (h : 0 ≤ q) : ratTrunc q = ⌊q⌋ :=
  if_neg (not_lt.mpr h)

/-- If no element beats the running maximum, the scan state is unchanged. -/
lemma deeplabLoop_const (xs : List ℚ) (i : ℕ) (mv : ℚ) (mp : ℕ)
    (h : ∀ x ∈ xs, ¬ mv < x) : deeplabLoop xs i (mv, mp) = (mv, mp) := by
  induction xs generalizing i with
  | nil => rfl
  | cons a t ih =>
      have ha : ¬ mv < a := h a (List.mem_cons_self a t)
      simp only [deeplabLoop, if_neg ha]
      exact ih (i+1) (fun x hx => h x (List.mem_cons_of_mem a hx))

/-- When some element beats the running maximum, the scan ends on the first
index attaining the maximum of the remaining list (offset by `i`). -/
lemma deeplabLoop_firstArgmax (xs : List ℚ) (i : ℕ) (mv : ℚ) (mp : ℕ)
    (h : ∃ x ∈ xs, mv < x) :
    (deeplabLoop xs i (mv, mp)).2 = i + firstArgmax xs := by
  induction xs generalizing i mv mp with
  | nil =>
      rcases h with ⟨x, hx, _⟩
      cases hx
  | cons a t ih =>
      by_cases hmax : ∀ y ∈ t, y ≤ a
      · have hmv : mv < a := by
          rcases h with ⟨x, hx, hlt⟩
          rcases List.mem_cons.mp hx with hEq | hxt
          · exact hEq ▸ hlt
          · exact lt_of_lt_of_le hlt (hmax x hxt)
        simp only [deeplabLoop, if_pos hmv]
        rw [deeplabLoop_const t (i+1) a i (fun y hy => not_lt.mpr (hmax y hy))]
        have h0 : firstArgmax (a :: t) = 0 := by
          unfold firstArgmax
          exact if_pos hmax
        rw [h0]
        simp
      · simp only [deeplabLoop, firstArgmax, if_neg hmax]
        have hex : ∃ y ∈ t, a < y := by
          push_neg at hmax
          exact hmax
        by_cases hmv : mv < a
        · rw [if_pos hmv, ih (i+1) a i hex]
          omega
        · have hex2 : ∃ x ∈ t, mv < x := by
            rcases h with ⟨x, hx, hlt⟩
            rcases List.mem_cons.mp hx with hEq | hxt
            · exact absurd (hEq ▸ hlt) hmv
            · exact ⟨x, hxt, hlt⟩
          rw [if_neg hmv, ih (i+1) mv mp hex2]
          omega

/-- The final scan position is the initial one or lies below `i` plus the
number of scanned elements. -/
lemma deeplabLoop_snd_lt (xs : List ℚ) (i : ℕ) (mv : ℚ) (mp : ℕ) :
    (deeplabLoop xs i (mv, mp)).2 = mp ∨ (deeplabLoop xs i (mv, mp)).2 < i + xs.length := by
  induction xs generalizing i mv mp with
  | nil => exact Or.inl rfl
  | cons a t ih =>
      simp only [deeplabLoop, List.length_cons]
      by_cases hmv : mv < a
      · rw [if_pos hmv]
        rcases ih (i+1) a i with h | h
        · right
          omega
        · right
          omega
      · rw [if_neg hmv]
        rcases ih (i+1) mv mp with h | h
        · exact Or.inl h
        · right
          omega

/-- maxpos always lands inside a non-empty row. -/
lemma deeplabArgmax_lt (row : List ℚ) (h : row ≠ []) :
    deeplabArgmax row < row.length := by
  unfold deeplabArgmax
  rcases deeplabLoop_snd_lt row 0 (-10000) 0 with h0 | h0
  · rw [h0]
    exact List.length_pos.mpr h
  · simpa using h0

/-- When some logit beats the -10000 sentinel, the scan computes the first
index attaining the maximum. -/
lemma deeplabArgmax_eq (row : List ℚ) (h : ∃ x ∈ row, -10000 < x) :
    deeplabArgmax row = firstArgmax row := by
  unfold deeplabArgmax
  simpa using deeplabLoop_firstArgmax row 0 (-10000) 0 h

/-- The DeepLab classification value is 0 or 255. -/
lemma deeplabVal_cases (row : List ℚ) (pers : ℕ) :
    deeplabVal row pers = 0 ∨ deeplabVal row pers = 255 := by
  unfold deeplabVal
  split_ifs <;> simp

/-- `std::find` distance equals the length when "person" is absent. -/
lemma persIndex_eq_length (ls : List String) (h : "person" ∉ ls) :
    persIndex ls = ls.length := by
  induction ls with
  | nil => rfl
  | cons a t ih =>
      have ha : ¬ a = "person" := fun hEq => h (hEq ▸ List.mem_cons_self a t)
      simp only [persIndex, if_neg ha, List.length_cons]
      rw [ih (fun hm => h (List.mem_cons_of_mem a hm))]

/-- The active label list is never empty: an empty parsed list keeps the
built-in DeepLab list (init_tensorflow, deepseg.cc 374). -/
lemma activeLabels_ne_nil (t : List String) : activeLabels t ≠ [] := by
  unfold activeLabels
  split_ifs with h
  · simp [defaultLabels]
  · exact h

/-- Softmax comparison reduces to logit comparison. -/
lemma segm_lt_iff (l0 l1 : ℝ) : segmP0 l0 l1 < segmP1 l0 l1 ↔ l0 < l1 := by
  unfold segmP0 segmP1
  rw [div_lt_div_iff_of_pos_right (by positivity)]
  exact Real.exp_lt_exp

/-- Bitwise or of 224 with a value below 32 is plain addition. -/
lemma or224 (x : ℕ) (hx : x < 32) : 224 ||| x = 224 + x := by
  interval_cases x <;> rfl

/-- The blended mask byte keeps the classification in its top three bits
and the decayed previous byte in its low five bits. -/
lemma blendByte_bits (val prev : ℕ) (hv : val = 0 ∨ val = 255) (hp : prev < 256) :
    blendByte val prev / 32 = val / 32 ∧ blendByte val prev % 32 = prev / 8 := by
  have hsh : prev >>> 3 = prev / 8 := Nat.shiftRight_eq_div_pow prev 3
  have hlt : prev / 8 < 32 := by omega
  rcases hv with hv | hv <;> subst hv
  · unfold blendByte
    rw [hsh]
    simp only [Nat.zero_and, Nat.zero_or]
    omega
  · unfold blendByte
    rw [hsh, show (255 &&& 0xE0 : ℕ) = 224 from rfl, or224 _ hlt]
    omega

/-! ### Claim theorems -/

/-- C1 (counterexample): a concrete metadata blob is parsed successfully
(status 0) with mean 0.0 and stddev 1.0, yet the value the Mask Engine
feeds to the input tensor for pixel value 0 is -1 — the hardcoded
`x/128 - 1` of calc_mask line 415 — and not the 0 produced by the
claimed (mean, stddev) affine transform `(x - 0) / 1`. The extracted
values never reach the normalization step. -/
theorem C1_counterexample :
    (parse_metadata metaBuf 0 0).status = 0
  ∧ fp32ToRat (parse_metadata metaBuf 0 0).mean = 0
  ∧ fp32ToRat (parse_metadata metaBuf 0 0).stdd = 1
  ∧ specNormalize (fp32ToRat (parse_metadata metaBuf 0 0).mean)
      (fp32ToRat (parse_metadata metaBuf 0 0).stdd) 0 = 0
  ∧ maskEngineInput (parse_metadata metaBuf 0 0) 0 = -1
  ∧ maskEngineInput (parse_metadata metaBuf 0 0) 0
      ≠ specNormalize (fp32ToRat (parse_metadata metaBuf 0 0).mean)
          (fp32ToRat (parse_metadata metaBuf 0 0).stdd) 0 := by
  have hm : fp32ToRat (parse_metadata metaBuf 0 0).mean = 0 := by decide
  have hs : fp32ToRat (parse_metadata metaBuf 0 0).stdd = 1 := by decide
  have hspec : specNormalize (fp32ToRat (parse_metadata metaBuf 0 0).mean)
      (fp32ToRat (parse_metadata metaBuf 0 0).stdd) 0 = 0 := by
    rw [hm, hs]
    norm_num [specNormalize]
  have hcode : maskEngineInput (parse_metadata metaBuf 0 0) 0 = -1 := by
    norm_num [maskEngineInput, calcNormalize]
  refine ⟨by decide, hm, hs, hspec, hcode, ?_⟩
  rw [hspec, hcode]
  norm_num

/-- C1 (amended): before inference the Mask Engine normalizes every pixel
with the fixed affine transform `x / 128 - 1`; the normalization is the
same function for every metadata-parse outcome, because the extracted
(mean, stddev) values only reach init_tensorflow locals that are printed
and discarded (TODO at deepseg.cc 354). -/
theorem C1_fixed_normalization (pr pr2 : ParseResult) (x : ℚ) :
    maskEngineInput pr x = x / 128 - 1 ∧ maskEngineInput pr x = maskEngineInput pr2 x := by
  constructor
  · unfold maskEngineInput calcNormalize
    ring
  · rfl

/-- C2: the Google Meet (TwoChannelSoftmax) branch softmaxes the two
logits and classifies a position foreground (value 0) exactly when the
person probability strictly exceeds the background probability, which
happens exactly when the person logit exceeds the background logit; a
person logit of 5 against a background logit of 1 yields foreground, and
the exact tie (1, 1) yields background by the strict-less-than
comparison `p0 < p1`. -/
theorem C2_softmax_decode (l0 l1 : ℝ) :
    (segmVal l0 l1 = 0 ↔ segmP0 l0 l1 < segmP1 l0 l1)
  ∧ (segmVal l0 l1 = 255 ↔ ¬ segmP0 l0 l1 < segmP1 l0 l1)
  ∧ (segmP0 l0 l1 < segmP1 l0 l1 ↔ l0 < l1)
  ∧ segmVal 1 5 = 0
  ∧ segmVal 1 1 = 255 := by
  refine ⟨?_, ?_, segm_lt_iff l0 l1, ?_, ?_⟩
  · unfold segmVal
    split_ifs with h <;> simp [h]
  · unfold segmVal
    split_ifs with h <;> simp [h]
  · have h : segmP0 1 5 < segmP1 1 5 := (segm_lt_iff 1 5).mpr (by norm_num)
    unfold segmVal
    rw [if_pos h]
  · have h : ¬ segmP0 1 1 < segmP1 1 1 := by
      rw [segm_lt_iff]
      norm_num
    unfold segmVal
    rw [if_neg h]

/-- C3 (counterexample): for frame 100x480 and model input 256x144 the
computed ROI is x = -85, w = 270, h = 480: it sticks out of the frame on
both sides (x < 0 and x + w > frame width), and its aspect ratio is
270:480 = modelH:modelW, not the model-input aspect ratio 256:144
(w * 144 ≠ h * 256). -/
theorem C3_counterexample :
    (roiRect 100 480 256 144).x = -85
  ∧ (roiRect 100 480 256 144).w = 270
  ∧ (roiRect 100 480 256 144).h = 480
  ∧ ¬ (0 ≤ (roiRect 100 480 256 144).x)
  ∧ ¬ ((roiRect 100 480 256 144).x + (roiRect 100 480 256 144).w ≤ 100)
  ∧ (roiRect 100 480 256 144).w * 144 ≠ (roiRect 100 480 256 144).h * 256 := by
  have hx : (roiRect 100 480 256 144).x = -85 := by
    show ratTrunc _ = _
    rw [show ((((100:ℕ) : ℚ) - ((480:ℕ) : ℚ) / (((256:ℕ) : ℚ) / ((144:ℕ) : ℚ))) / 2)
          = ((-85 : ℤ) : ℚ) by norm_num]
    exact ratTrunc_intCast _
  have hw : (roiRect 100 480 256 144).w = 270 := by
    show ratTrunc _ = _
    rw [show (((480:ℕ) : ℚ) / (((256:ℕ) : ℚ) / ((144:ℕ) : ℚ))) = ((270 : ℤ) : ℚ) by norm_num]
    exact ratTrunc_intCast _
  have hh : (roiRect 100 480 256 144).h = 480 := rfl
  refine ⟨hx, hw, hh, ?_, ?_, ?_⟩
  · rw [hx]
    norm_num
  · rw [hx, hw]
    norm_num
  · rw [hw, hh]
    norm_num

/-- C3 (amended): for positive frame and model dimensions such that the
ROI width `frameH * modelH / modelW` fits into the frame width, the ROI
is contained in the frame bounds, horizontally centered up to the
truncation slack (gap difference at most 2, and 0 for even exact fits),
spans the full frame height, and its width-to-height ratio is
modelH : modelW — the inverse of the model-input aspect ratio (equal to
it exactly when the model input is square); when modelW divides
frameH * modelH the width relation `w * modelW = frameH * modelH` is
exact. -/
theorem C3_roi_contained (w h mw mh : ℕ) ( _hw : 0 < w) (hh : 0 < h)
    (hmw : 0 < mw) (hmh : 0 < mh) (hfit : h * mh ≤ w * mw) :
    (0 ≤ (roiRect w h mw mh).x
      ∧ (roiRect w h mw mh).x + (roiRect w h mw mh).w ≤ (w : ℤ)
      ∧ (roiRect w h mw mh).y = 0
      ∧ (roiRect w h mw mh).h = (h : ℤ))
  ∧ (0 ≤ (w : ℤ) - 2 * (roiRect w h mw mh).x - (roiRect w h mw mh).w
      ∧ (w : ℤ) - 2 * (roiRect w h mw mh).x - (roiRect w h mw mh).w ≤ 2)
  ∧ ((mw : ℤ) ∣ (h : ℤ) * (mh : ℤ) →
      (roiRect w h mw mh).w * (mw : ℤ) = (h : ℤ) * (mh : ℤ)) := by
  have hmw0 : ((mw : ℚ)) ≠ 0 := Nat.cast_ne_zero.mpr (Nat.pos_iff_ne_zero.mp hmw)
  have hmh0 : ((mh : ℚ)) ≠ 0 := Nat.cast_ne_zero.mpr (Nat.pos_iff_ne_zero.mp hmh)
  have hrt : (h : ℚ) / ((mw : ℚ) / (mh : ℚ)) = (h : ℚ) * (mh : ℚ) / (mw : ℚ) := by
    field_simp
  have hrq0 : 0 ≤ (h : ℚ) * (mh : ℚ) / (mw : ℚ) := by positivity
  have hrqW : (h : ℚ) * (mh : ℚ) / (mw : ℚ) ≤ (w : ℚ) := by
    rw [div_le_iff₀ (by positivity)]
    exact_mod_cast hfit
  have hxq0 : 0 ≤ ((w : ℚ) - (h : ℚ) * (mh : ℚ) / (mw : ℚ)) / 2 := by linarith
  have hxdef : (roiRect w h mw mh).x = ⌊((w : ℚ) - (h : ℚ) * (mh : ℚ) / (mw : ℚ)) / 2⌋ := by
    show ratTrunc _ = _
    rw [hrt]
    exact ratTrunc_of_nonneg _ hxq0
  have hwdef : (roiRect w h mw mh).w = ⌊(h : ℚ) * (mh : ℚ) / (mw : ℚ)⌋ := by
    show ratTrunc _ = _
    rw [hrt]
    exact ratTrunc_of_nonneg _ hrq0
  have hXle : (((roiRect w h mw mh).x : ℚ)) ≤ ((w : ℚ) - (h : ℚ) * (mh : ℚ) / (mw : ℚ)) / 2 := by
    rw [hxdef]
    exact Int.floor_le _
  have hXgt : ((w : ℚ) - (h : ℚ) * (mh : ℚ) / (mw : ℚ)) / 2 - 1 < (((roiRect w h mw mh).x : ℚ)) := by
    rw [hxdef]
    exact Int.sub_one_lt_floor _
  have hWle : (((roiRect w h mw mh).w : ℚ)) ≤ (h : ℚ) * (mh : ℚ) / (mw : ℚ) := by
    rw [hwdef]
    exact Int.floor_le _
  have hWgt : (h : ℚ) * (mh : ℚ) / (mw : ℚ) - 1 < (((roiRect w h mw mh).w : ℚ)) := by
    rw [hwdef]
    exact Int.sub_one_lt_floor _
  have hX0 : 0 ≤ (roiRect w h mw mh).x := by
    rw [hxdef]
    exact Int.floor_nonneg.mpr hxq0
  refine ⟨⟨hX0, ?_, rfl, rfl⟩, ⟨?_, ?_⟩, ?_⟩
  · have hq : (((roiRect w h mw mh).x : ℚ)) + (((roiRect w h mw mh).w : ℚ)) ≤ (w : ℚ) := by
      linarith
    exact_mod_cast hq
  · have hq : 0 ≤ (w : ℚ) - 2 * (((roiRect w h mw mh).x : ℚ)) - (((roiRect w h mw mh).w : ℚ)) := by
      linarith
    have hz : (0 : ℚ) ≤ (((w : ℤ) - 2 * (roiRect w h mw mh).x - (roiRect w h mw mh).w : ℤ) : ℚ) := by
      push_cast
      linarith
    exact_mod_cast hz
  · have hq : (w : ℚ) - 2 * (((roiRect w h mw mh).x : ℚ)) - (((roiRect w h mw mh).w : ℚ)) < 3 := by
      linarith
    have hz : ((((w : ℤ) - 2 * (roiRect w h mw mh).x - (roiRect w h mw mh).w : ℤ)) : ℚ) < ((3 : ℤ) : ℚ) := by
      push_cast
      linarith
    have : ((w : ℤ) - 2 * (roiRect w h mw mh).x - (roiRect w h mw mh).w : ℤ) < 3 := by
      exact_mod_cast hz
    omega
  · rintro ⟨k, hk⟩
    have hk0 : 0 ≤ k := by
      by_contra hneg
      push_neg at hneg
      have h1 : (0 : ℤ) ≤ (h : ℤ) * (mh : ℤ) := by positivity
      have h2 : (mw : ℤ) * k < 0 := by
        apply mul_neg_of_pos_of_neg _ hneg
        exact_mod_cast hmw
      omega
    have hrqk : (h : ℚ) * (mh : ℚ) / (mw : ℚ) = ((k : ℤ) : ℚ) := by
      rw [div_eq_iff hmw0]
      have : (((h : ℤ) * (mh : ℤ) : ℤ) : ℚ) = (((mw : ℤ) * k : ℤ) : ℚ) := by
        exact_mod_cast congrArg (fun z => ((z : ℤ) : ℚ)) hk
      push_cast at this ⊢
      linarith
    have : (roiRect w h mw mh).w = k := by
      rw [hwdef, hrqk, Int.floor_intCast]
    rw [this, hk]
    ring

/-- C3 (witness): for the standard 640x480 frame with a square 256x256
model input the hypotheses hold and the ROI (80, 0, 480, 480) is
contained in the frame with an exact width relation. -/
theorem C3_witness :
    480 * 256 ≤ 640 * 256
  ∧ (0 ≤ (roiRect 640 480 256 256).x
      ∧ (roiRect 640 480 256 256).x + (roiRect 640 480 256 256).w ≤ (640 : ℤ))
  ∧ (roiRect 640 480 256 256).w * (256 : ℤ) = (480 : ℤ) * (256 : ℤ) := by
  have h := C3_roi_contained 640 480 256 256 (by norm_num) (by norm_num)
    (by norm_num) (by norm_num) (by norm_num)
  refine ⟨by norm_num, ⟨h.1.1, h.1.2.1⟩, ?_⟩
  have hd := h.2.2 ⟨480, by norm_num⟩
  exact_mod_cast hd

/-- C4 (counterexample): with labels ["background", "person"] the
resolved person index is 1; at a position whose class logits are
(-20000, -10000) the arg-max over the logits is index 1 = person, yet
the decode classifies the position background (255), because the scan
starts from the -10000 sentinel and no logit strictly exceeds it. The
claim "foreground exactly when the arg-max equals the person index"
fails on such tensors. -/
theorem C4_counterexample :
    persIndex ["background", "person"] = 1
  ∧ firstArgmax (deeplabRow (fun i => if i = 0 then -20000 else -10000) 2 0) = 1
  ∧ deeplabClass (fun i => if i = 0 then -20000 else -10000) 2 1 0 = 255 := by
  refine ⟨?_, by decide, by decide⟩
  simp [persIndex]

/-- C4 (amended): at every output position holding at least one class
logit strictly above -10000, the DeepLab decode classifies the position
foreground (0) exactly when the first index attaining the maximum logit
(ties to the lowest index) equals the resolved person index, and
background (255) at every other such position. Positions with all
logits at or below -10000 keep scan position 0 instead of the arg-max. -/
theorem C4_deeplab_argmax (tmp : ℕ → ℚ) (cnum pers n : ℕ)
    (hlive : ∃ i, i < cnum ∧ -10000 < tmp (n * cnum + i)) :
    (deeplabClass tmp cnum pers n = 0 ↔ firstArgmax (deeplabRow tmp cnum n) = pers)
  ∧ (deeplabClass tmp cnum pers n = 255 ↔ firstArgmax (deeplabRow tmp cnum n) ≠ pers) := by
  have hex : ∃ x ∈ deeplabRow tmp cnum n, -10000 < x := by
    rcases hlive with ⟨i, hi, hgt⟩
    refine ⟨tmp (n * cnum + i), ?_, hgt⟩
    unfold deeplabRow
    exact List.mem_map.mpr ⟨i, List.mem_range.mpr hi, rfl⟩
  have harg := deeplabArgmax_eq _ hex
  unfold deeplabClass deeplabVal
  rw [harg]
  constructor
  · split_ifs with hEq <;> simp [hEq]
  · split_ifs with hEq <;> simp [hEq]

/-- C4 (witness): a live position with logits (1, 5) and person index 1
is classified foreground. -/
theorem C4_witness :
    (∃ i, i < 2 ∧ (-10000 : ℚ) < (fun j : ℕ => if j = 1 then (5 : ℚ) else 1) (0 * 2 + i))
  ∧ deeplabClass (fun j : ℕ => if j = 1 then (5 : ℚ) else 1) 2 1 0 = 0 :=
  ⟨⟨0, by decide⟩,
   (C4_deeplab_argmax (fun j : ℕ => if j = 1 then (5 : ℚ) else 1) 2 1 0
      ⟨0, by decide⟩).1.mpr (by decide)⟩

/-- C5: when "person" does not occur in the active label list, the
resolved person index equals the list length; the scan position at any
output position is strictly below the class count, so every position of
every output tensor decodes to background (255) — no pixel is ever
classified foreground. -/
theorem C5_person_absent (tmplabs : List String) (tmp : ℕ → ℚ) (n : ℕ)
    (habs : "person" ∉ activeLabels tmplabs) :
    persIndex (activeLabels tmplabs) = (activeLabels tmplabs).length
  ∧ deeplabClass tmp (activeLabels tmplabs).length
      (persIndex (activeLabels tmplabs)) n = 255 := by
  have hne : activeLabels tmplabs ≠ [] := activeLabels_ne_nil tmplabs
  have hidx := persIndex_eq_length (activeLabels tmplabs) habs
  have hpos : 0 < (activeLabels tmplabs).length := List.length_pos.mpr hne
  refine ⟨hidx, ?_⟩
  have hlen : (deeplabRow tmp (activeLabels tmplabs).length n).length
      = (activeLabels tmplabs).length := by
    unfold deeplabRow
    simp
  have hrow : deeplabRow tmp (activeLabels tmplabs).length n ≠ [] := by
    intro hc
    rw [hc] at hlen
    simp at hlen
    omega
  have hlt : deeplabArgmax (deeplabRow tmp (activeLabels tmplabs).length n)
      < (activeLabels tmplabs).length :=
    lt_of_lt_of_eq (deeplabArgmax_lt _ hrow) hlen
  unfold deeplabClass deeplabVal
  rw [if_neg]
  omega

/-- C5 (witness): with the single non-person label "cat" every position
decodes to background. -/
theorem C5_witness :
    "person" ∉ activeLabels ["cat"]
  ∧ deeplabClass (fun _ => 3) (activeLabels ["cat"]).length
      (persIndex (activeLabels ["cat"])) 0 = 255 :=
  ⟨by decide, (C5_person_absent ["cat"] (fun _ => 3) 0 (by decide)).2⟩

/-- C6: parse_metadata returns 0 exactly when every structural check of
the fixed traversal passes; each checked mismatch aborts with its own
distinct status (1 for the file identifier, -1 and -2 for version length
and content, -3, -4 and -5 for the three single-element-list checks, -6
for the option id, -7 and -8 for the mean and std vectors), with every earlier check
passing; the failure codes are pairwise distinct; and the caller keeps
the default constants (0, 0) — unchanged locals, nothing fatal — on any
nonzero status and when metadata is absent. -/
theorem C6_parse_status (b : List ℕ) (m s : ℕ) :
    ((parse_metadata b m s).status = 0 ↔ pmChecksPass b)
  ∧ ((parse_metadata b m s).status = 1 ↔ ¬ pmCheck1 b)
  ∧ ((parse_metadata b m s).status = -1 ↔ pmCheck1 b ∧ ¬ pmCheck2 b)
  ∧ ((parse_metadata b m s).status = -2 ↔ pmCheck1 b ∧ pmCheck2 b ∧ ¬ pmCheck3 b)
  ∧ ((parse_metadata b m s).status = -3 ↔
      pmCheck1 b ∧ pmCheck2 b ∧ pmCheck3 b ∧ ¬ pmCheck4 b)
  ∧ ((parse_metadata b m s).status = -4 ↔
      pmCheck1 b ∧ pmCheck2 b ∧ pmCheck3 b ∧ pmCheck4 b ∧ ¬ pmCheck5 b)
  ∧ ((parse_metadata b m s).status = -5 ↔
      pmCheck1 b ∧ pmCheck2 b ∧ pmCheck3 b ∧ pmCheck4 b ∧ pmCheck5 b ∧ ¬ pmCheck6 b)
  ∧ ((parse_metadata b m s).status = -6 ↔
      pmCheck1 b ∧ pmCheck2 b ∧ pmCheck3 b ∧ pmCheck4 b ∧ pmCheck5 b ∧ pmCheck6 b
      ∧ ¬ pmCheck7 b)
  ∧ ((parse_metadata b m s).status = -7 ↔
      pmCheck1 b ∧ pmCheck2 b ∧ pmCheck3 b ∧ pmCheck4 b ∧ pmCheck5 b ∧ pmCheck6 b
      ∧ pmCheck7 b ∧ ¬ pmCheck8 b)
  ∧ ((parse_metadata b m s).status = -8 ↔
      pmCheck1 b ∧ pmCheck2 b ∧ pmCheck3 b ∧ pmCheck4 b ∧ pmCheck5 b ∧ pmCheck6 b
      ∧ pmCheck7 b ∧ pmCheck8 b ∧ ¬ pmCheck9 b)
  ∧ [(1 : ℤ), -1, -2, -3, -4, -5, -6, -7, -8].Pairwise (· ≠ ·)
  ∧ ((parse_metadata b m s).status ≠ 0 → initNormalization (some b) = (0, 0))
  ∧ initNormalization none = (0, 0) := by
  have hdist : [(1 : ℤ), -1, -2, -3, -4, -5, -6, -7, -8].Pairwise (· ≠ ·) := by decide
  by_cases h1 : pmCheck1 b
  case neg => simp [parse_metadata, initNormalization, pmChecksPass, h1, hdist]
  by_cases h2 : pmCheck2 b
  case neg => simp [parse_metadata, initNormalization, pmChecksPass, h1, h2, hdist]
  by_cases h3 : pmCheck3 b
  case neg => simp [parse_metadata, initNormalization, pmChecksPass, h1, h2, h3, hdist]
  by_cases h4 : pmCheck4 b
  case neg => simp [parse_metadata, initNormalization, pmChecksPass, h1, h2, h3, h4, hdist]
  by_cases h5 : pmCheck5 b
  case neg =>
    simp [parse_metadata, initNormalization, pmChecksPass, h1, h2, h3, h4, h5, hdist]
  by_cases h6 : pmCheck6 b
  case neg =>
    simp [parse_metadata, initNormalization, pmChecksPass, h1, h2, h3, h4, h5, h6, hdist]
  by_cases h7 : pmCheck7 b
  case neg =>
    simp [parse_metadata, initNormalization, pmChecksPass, h1, h2, h3, h4, h5, h6, h7, hdist]
  by_cases h8 : pmCheck8 b
  case neg =>
    simp [parse_metadata, initNormalization, pmChecksPass,
      h1, h2, h3, h4, h5, h6, h7, h8, hdist]
  by_cases h9 : pmCheck9 b
  case neg =>
    simp [parse_metadata, initNormalization, pmChecksPass,
      h1, h2, h3, h4, h5, h6, h7, h8, h9, hdist]
  simp [parse_metadata, initNormalization, pmChecksPass,
    h1, h2, h3, h4, h5, h6, h7, h8, h9, hdist]

/-- C6 (witness): the concrete blob metaBuf passes every check and
returns status 0. -/
theorem C6_witness : (parse_metadata metaBuf 0 0).status = 0 ∧ pmChecksPass metaBuf :=
  ⟨by decide, (C6_parse_status metaBuf 0 0).1.mp (by decide)⟩

/-- C7: over any number of processing cycles, every full-frame mask pixel
outside the ROI rectangle keeps its initialized value 1 (the value that
makes bg.copyTo replace the pixel with the substitute background — the
"no removal" constant of the specification, which names the all-background
degrade a "no-removal mask"); the upsample step of a cycle writes exactly
the pixels inside the ROI with that cycle's small mask. -/
theorem C7_outside_roi_unchanged (r : CvRect) (smalls : ℕ → ℤ → ℤ → ℕ)
    (k : ℕ) (px py : ℤ) :
    (¬ inRect r px py →
      runMaskCycles r smalls k px py = maskInit px py
      ∧ runMaskCycles r smalls k px py = 1)
  ∧ (inRect r px py →
      runMaskCycles r smalls (k+1) px py = smalls k px py) := by
  constructor
  · intro hout
    induction k with
    | zero => exact ⟨rfl, rfl⟩
    | succ k ih =>
        have hstep : runMaskCycles r smalls (k+1) px py = runMaskCycles r smalls k px py := by
          show upsampleWrite r (smalls k) (runMaskCycles r smalls k) px py = _
          unfold upsampleWrite
          rw [if_neg hout]
        rw [hstep]
        exact ih
  · intro hin
    show upsampleWrite r (smalls k) (runMaskCycles r smalls k) px py = _
    unfold upsampleWrite
    rw [if_pos hin]

/-- C7 (witness): with the 640x480 frame ROI (80,0,480,480), the corner
pixel (0,0) lies outside the ROI and still holds 1 after three cycles
writing 42 inside. -/
theorem C7_witness :
    ¬ inRect ⟨80, 0, 480, 480⟩ 0 0
  ∧ runMaskCycles ⟨80, 0, 480, 480⟩ (fun _ _ _ => 42) 3 0 0 = 1 :=
  ⟨by decide,
   ((C7_outside_roi_unchanged ⟨80, 0, 480, 480⟩ (fun _ _ _ => 42) 3 0 0).1 (by decide)).2⟩

/-- C9: in all three model-family branches the new mask byte is
`(val & 0xE0) | (prev >> 3)`: its top three bits are the top three bits
of the current classification value and its low five bits are the
previous byte shifted down by three, so the new byte is not a pure
function of the current tensor — the same classification with different
previous bytes yields different results. -/
theorem C9_mask_byte_blend (row : List ℚ) (pers : ℕ) (p : ℚ) (l0 l1 : ℝ)
    (prev : ℕ) (hprev : prev < 256) :
    deeplabByte row pers prev = (deeplabVal row pers &&& 0xE0) ||| (prev >>> 3)
  ∧ bodypixByte p prev = (bodypixVal p &&& 0xE0) ||| (prev >>> 3)
  ∧ segmByte l0 l1 prev = (segmVal l0 l1 &&& 0xE0) ||| (prev >>> 3)
  ∧ (∀ val : ℕ, val = 0 ∨ val = 255 →
      blendByte val prev / 32 = val / 32 ∧ blendByte val prev % 32 = prev / 8)
  ∧ deeplabByte row pers 0 ≠ deeplabByte row pers 255 := by
  refine ⟨rfl, rfl, rfl, fun val hv => blendByte_bits val prev hv hprev, ?_⟩
  show blendByte (deeplabVal row pers) 0 ≠ blendByte (deeplabVal row pers) 255
  rcases deeplabVal_cases row pers with hv | hv <;> rw [hv] <;> decide

/-- C9 (witness): previous byte 9 (below 256) with a foreground DeepLab
classification yields the blended byte predicted by the theorem. -/
theorem C9_witness :
    (9 : ℕ) < 256 ∧ deeplabByte [(1 : ℚ)] 0 9 = 1 := by
  have h := (C9_mask_byte_blend [(1 : ℚ)] 0 0 1 1 9 (by norm_num)).1
  refine ⟨by norm_num, ?_⟩
  rw [h]
  decide

/-- C10: parse_metadata is atomic in its outputs: on every nonzero
status the caller-supplied mean and stddev locations still hold the
values they had on entry, and they are overwritten (with the traversal's
mean and std words) only on the status-0 success path. -/
theorem C10_outputs_atomic (b : List ℕ) (m s : ℕ) :
    ((parse_metadata b m s).status ≠ 0 →
      (parse_metadata b m s).mean = m ∧ (parse_metadata b m s).stdd = s)
  ∧ ((parse_metadata b m s).status = 0 →
      (parse_metadata b m s).mean = u32At b (pmNomeanv b + 4)
      ∧ (parse_metadata b m s).stdd = u32At b (pmNostdv b + 4)) := by
  unfold parse_metadata
  split_ifs <;> simp

/-- C10 (witness): the empty buffer fails with status -1 and leaves the
entry values (7, 9) untouched. -/
theorem C10_witness :
    (parse_metadata [] 7 9).status ≠ 0
  ∧ (parse_metadata [] 7 9).mean = 7 ∧ (parse_metadata [] 7 9).stdd = 9 :=
  ⟨by decide, (C10_outputs_atomic [] 7 9).1 (by decide)⟩

end Deepseg
